import Mathlib

/-! Verification of the epoll-based high-performance web server
(`src/examples/high_perf_webserver.c`).

The development shallowly embeds the server's connection pool, HTTP request
processing, response sending and the read-event handling of the main loop.
Buffers are lists of characters; C strings are modelled by truncation at the
first NUL character; the readiness multiplexer and the socket layer appear as
explicit parameters and result fields (bytes the OS accepted, interest
changes, close actions).
-/

/-- Constant `BUFFER_SIZE` from the source. -/
def BUFFER_SIZE : Nat := 8192

/-- The NUL character terminating C strings. -/
def nulChar : Char := Char.ofNat 0

/-- Structure `connection_t` from the source: one slot of the connection pool.
`buffer` models the fixed `char buffer[BUFFER_SIZE]` array (its full contents,
including bytes beyond `buffer_used`); `response` models the owned
`char *response` heap buffer, `none` standing for `NULL`. -/
structure connection_t where
  fd : Int
  buffer : List Char
  buffer_used : Nat
  response : Option (List Char)
  response_size : Nat
  response_sent : Nat
  keep_alive : Bool
deriving DecidableEq

/-- The C-string view of a byte buffer: the characters before the first NUL,
as read by `strstr`/`strncmp`/`sscanf`. -/
def cstr (l : List Char) : List Char := l.takeWhile (fun c => c != nulChar)

/-- Boolean prefix test on character lists (the comparison `strncmp` performs
when the bound equals the pattern length). -/
def prefixB : List Char → List Char → Bool
  | [], _ => true
  | _ :: _, [] => false
  | a :: as, b :: bs => a == b && prefixB as bs

/-- Boolean substring search: `strstrB l pat` holds exactly when `strstr`
would find `pat` inside the string `l`. -/
def strstrB : List Char → List Char → Bool
  | [], pat => pat.isEmpty
  | a :: t, pat => prefixB pat (a :: t) || strstrB t pat

/-- The header terminator `"\r\n\r\n"` searched for by the main loop. -/
def crlfcrlf : List Char := "\r\n\r\n".toList

/-- The 501 Not Implemented response literal (non-GET request). -/
def resp_501 : List Char :=
  ("HTTP/1.1 501 Not Implemented\r\n" ++
   "Content-Length: 28\r\n" ++
   "Connection: close\r\n" ++
   "\r\n" ++
   "Only GET requests supported").toList

/-- The 404 Not Found response literal. -/
def resp_404 : List Char :=
  ("HTTP/1.1 404 Not Found\r\n" ++
   "Content-Length: 14\r\n" ++
   "Connection: close\r\n" ++
   "\r\n" ++
   "File not found").toList

/-- The 500 Internal Server Error response literal. -/
def resp_500 : List Char :=
  ("HTTP/1.1 500 Internal Server Error\r\n" ++
   "Content-Length: 21\r\n" ++
   "Connection: close\r\n" ++
   "\r\n" ++
   "Internal Server Error").toList

/-- The 413 Request Entity Too Large response literal. -/
def resp_413 : List Char :=
  ("HTTP/1.1 413 Request Entity Too Large\r\n" ++
   "Content-Length: 24\r\n" ++
   "Connection: close\r\n" ++
   "\r\n" ++
   "Request is too large").toList

/-- The 503 Service Unavailable response literal (pool exhaustion). -/
def resp_503 : List Char :=
  ("HTTP/1.1 503 Service Unavailable\r\n" ++
   "Content-Length: 21\r\n" ++
   "Connection: close\r\n" ++
   "\r\n" ++
   "Server is overloaded").toList

/-- Scan a string for the first occurrence of `pat` and return what follows
it, if `pat` occurs at all. -/
def findAfter (pat : List Char) : List Char → Option (List Char)
  | [] => none
  | a :: t =>
    if prefixB pat (a :: t) then some ((a :: t).drop pat.length)
    else findAfter pat t

/-- Decimal digits to a natural number. -/
def digitsToNat (l : List Char) : Nat :=
  l.foldl (fun n c => n * 10 + (c.toNat - 48)) 0

/-- The body of an HTTP response: everything after the first `CRLFCRLF`. -/
def bodyAfterTerm (r : List Char) : List Char := (findAfter crlfcrlf r).getD []

/-- The numeric value written in a response's `Content-Length` header. -/
def contentLengthOf (r : List Char) : Option Nat :=
  (findAfter ("Content-Length: ".toList) r).map
    (fun rest => digitsToNat (rest.takeWhile Char.isDigit))

/-- Function `prefixB` decides list-prefix. -/
lemma prefixB_correct : ∀ (pat l : List Char), prefixB pat l = true ↔ pat <+: l := by
  intro pat
  induction pat with
  | nil =>
    intro l
    simp only [prefixB, true_iff]
    exact List.nil_prefix
  | cons a as ih =>
    intro l
    cases l with
    | nil =>
      simp [prefixB]
    | cons b bs =>
      simp only [prefixB, Bool.and_eq_true, beq_iff_eq, ih]
      constructor
      · rintro ⟨rfl, t, rfl⟩
        exact ⟨t, rfl⟩
      · rintro ⟨t, h⟩
        injection h with h1 h2
        exact ⟨h1, t, h2⟩

/-- Function `strstrB` decides substring occurrence. -/
lemma strstrB_correct : ∀ (l pat : List Char), strstrB l pat = true ↔ pat <:+: l := by
  intro l
  induction l with
  | nil =>
    intro pat
    cases pat with
    | nil => simp [strstrB]
    | cons a as =>
      simp only [strstrB, List.isEmpty_cons]
      constructor
      · intro h
        exact absurd h (by simp)
      · rintro ⟨s, t, h⟩
        simp [List.append_eq_nil] at h
  | cons a t ih =>
    intro pat
    simp only [strstrB, Bool.or_eq_true, prefixB_correct, ih]
    constructor
    · rintro (⟨r, hr⟩ | ⟨s, r, hs⟩)
      · exact ⟨[], r, by simpa using hr⟩
      · exact ⟨a :: s, r, by simp [hs]⟩
    · rintro ⟨s, r, h⟩
      cases s with
      | nil =>
        left
        exact ⟨r, by simpa using h⟩
      | cons x xs =>
        right
        injection h with h1 h2
        exact ⟨xs, r, h2⟩

/-- A pattern containing a character absent from the string never occurs. -/
lemma not_occurs_of_mem_not_mem {c : Char} {pat l : List Char}
    (hc : c ∈ pat) (hl : c ∉ l) : ¬ pat <:+: l := by
  rintro ⟨s, t, rfl⟩
  exact hl (by simp [hc])

/-- Lemma: `takeWhile` stops exactly at the first failing element. -/
lemma takeWhile_append_cons (p : Char → Bool) :
    ∀ (a : List Char) (c : Char) (r : List Char),
      (∀ x ∈ a, p x = true) → p c = false →
      (a ++ c :: r).takeWhile p = a := by
  intro a
  induction a with
  | nil =>
    intro c r _ hc
    simp [List.takeWhile_cons, hc]
  | cons x xs ih =>
    intro c r hall hc
    have hx : p x = true := hall x (by simp)
    simp only [List.cons_append, List.takeWhile_cons, hx, if_true]
    rw [ih c r (fun y hy => hall y (by simp [hy])) hc]

/-- Lemma: `takeWhile` keeps a list all of whose elements pass. -/
lemma takeWhile_all (p : Char → Bool) :
    ∀ (l : List Char), (∀ x ∈ l, p x = true) → l.takeWhile p = l := by
  intro l
  induction l with
  | nil => simp
  | cons x xs ih =>
    intro hall
    have hx : p x = true := hall x (by simp)
    simp only [List.takeWhile_cons, hx, if_true]
    rw [ih (fun y hy => hall y (by simp [hy]))]

/-- The C-string view of a NUL-free buffer followed by a NUL is exactly the
part before the NUL. -/
lemma cstr_append_nul (acc rest : List Char) (hnn : nulChar ∉ acc) :
    cstr (acc ++ nulChar :: rest) = acc := by
  unfold cstr
  refine takeWhile_append_cons _ acc nulChar rest (fun x hx => ?_) (by simp)
  simp only [bne_iff_ne, ne_eq, decide_eq_true_eq]
  intro h
  exact hnn (h ▸ hx)

/-- Outcome of the non-blocking `send` call inside `send_response`: the OS
either would block, fails hard, or accepts `k` bytes (`k` never exceeds the
number of bytes requested). -/
inductive SendResult where
  | wouldBlock : SendResult
  | err : SendResult
  | sent : Nat → SendResult
deriving DecidableEq

/-- Result of `send_response`: its return value, the updated connection, and
whether the epoll interest of the socket was switched back to `EPOLLIN`. -/
structure SendOutcome where
  ret : Int
  conn : connection_t
  epoll_in : Bool
deriving DecidableEq

/-- Function `send_response` from the source.  `epollModOk` tells whether the
`epoll_ctl(EPOLL_CTL_MOD)` call in the keep-alive branch succeeds. -/
def send_response (conn : connection_t) (r : SendResult) (epollModOk : Bool) :
    SendOutcome :=
  match conn.response with
  | none => ⟨-1, conn, false⟩
  | some _ =>
    match r with
    | SendResult.wouldBlock => ⟨0, conn, false⟩
    | SendResult.err => ⟨-1, conn, false⟩
    | SendResult.sent k =>
      if conn.response_size ≤ conn.response_sent + k then
        let c' : connection_t :=
          { conn with
            response := none, response_size := 0,
            response_sent := conn.response_sent + k }
        if conn.keep_alive then
          if epollModOk then ⟨0, { c' with buffer_used := 0 }, true⟩
          else ⟨-1, { c' with buffer_used := 0 }, false⟩
        else ⟨-1, c', false⟩
      else ⟨0, { conn with response_sent := conn.response_sent + k }, false⟩

/-- The slot reset performed by `remove_connection`: descriptor marked unused,
response buffer freed, cursors cleared.  The input buffer's contents are NOT
cleared. -/
def remove_connection_some (c : connection_t) : connection_t :=
  { c with
    fd := -1, buffer_used := 0, response := none,
    response_size := 0, response_sent := 0, keep_alive := false }

/-- Function `remove_connection` from the source on a possibly-NULL pointer; the
boolean records whether `close` was called on the descriptor. -/
def remove_connection : Option connection_t → Option connection_t × Bool
  | none => (none, false)
  | some c => (some (remove_connection_some c), decide (0 ≤ c.fd))

/-- The free state of a pool slot, as established by `remove_connection`. -/
def is_free_slot (c : connection_t) : Prop :=
  c.fd = -1 ∧ c.buffer_used = 0 ∧ c.response = none ∧
  c.response_size = 0 ∧ c.response_sent = 0 ∧ c.keep_alive = false

/-- Result of the main loop's `EPOLLOUT` branch. -/
structure WriteOutcome where
  conn : connection_t
  removed : Bool
  epoll_in : Bool
deriving DecidableEq

/-- The main loop's `EPOLLOUT` branch: call `send_response`; a negative
return releases the connection via `remove_connection`. -/
def handle_write (conn : connection_t) (r : SendResult) (epollModOk : Bool) :
    WriteOutcome :=
  let o := send_response conn r epollModOk
  if o.ret < 0 then ⟨remove_connection_some o.conn, true, o.epoll_in⟩
  else ⟨o.conn, false, o.epoll_in⟩

/-- C1: the advertised `Content-Length` matches the body for the 404 and 500
responses, but the 501 response advertises 28 bytes for a 27-byte body, the
413 response advertises 24 bytes for a 20-byte body, and the 503 response
advertises 21 bytes for a 20-byte body. -/
theorem C1_error_content_length :
    contentLengthOf resp_404 = some (bodyAfterTerm resp_404).length
  ∧ contentLengthOf resp_500 = some (bodyAfterTerm resp_500).length
  ∧ contentLengthOf resp_501 = some 28 ∧ (bodyAfterTerm resp_501).length = 27
  ∧ contentLengthOf resp_413 = some 24 ∧ (bodyAfterTerm resp_413).length = 20
  ∧ contentLengthOf resp_503 = some 21 ∧ (bodyAfterTerm resp_503).length = 20 := by
  decide

/-- C2: when a send completes the response (hypotheses: sent cursor within
bounds, the OS accepted at most the remaining bytes, and the updated cursor
reaches the total), `output.sent` equals `output.total`; with `keepAlive`
true the output buffer is discarded, `input.used` is cleared and the epoll
interest returns to read-only; with `keepAlive` false the write handler
releases the connection, leaving a free slot. -/
theorem C2_completion_transition (conn : connection_t) (buf : List Char) (k : Nat)
    (hresp : conn.response = some buf)
    (hinv : conn.response_sent ≤ conn.response_size)
    (hk : k ≤ conn.response_size - conn.response_sent)
    (hdone : conn.response_size ≤ conn.response_sent + k) :
    ((send_response conn (SendResult.sent k) true).conn.response_sent
        = conn.response_size)
  ∧ (conn.keep_alive = true →
      (send_response conn (SendResult.sent k) true).ret = 0
    ∧ (send_response conn (SendResult.sent k) true).conn.response = none
    ∧ (send_response conn (SendResult.sent k) true).conn.buffer_used = 0
    ∧ (send_response conn (SendResult.sent k) true).epoll_in = true)
  ∧ (conn.keep_alive = false →
      (handle_write conn (SendResult.sent k) true).removed = true
    ∧ is_free_slot (handle_write conn (SendResult.sent k) true).conn) := by
  have heq : conn.response_sent + k = conn.response_size := by omega
  refine ⟨?_, fun hka => ?_, fun hka => ?_⟩
  · cases hka : conn.keep_alive <;>
      simp [send_response, hresp, hdone, hka, heq]
  · simp [send_response, hresp, hdone, hka]
  · constructor
    · simp [handle_write, send_response, hresp, hdone, hka]
    · simp [handle_write, send_response, hresp, hdone, hka,
            remove_connection_some, is_free_slot]

/-- Concrete keep-alive connection used to witness C2. -/
def conn_c2 : connection_t :=
  ⟨4, [], 3, some ("OK".toList), 2, 1, true⟩

/-- Witness for C2 at a concrete connection one byte short of completion. -/
theorem C2_completion_transition_witness :
    ((send_response conn_c2 (SendResult.sent 1) true).conn.response_sent
        = conn_c2.response_size)
  ∧ (conn_c2.keep_alive = true →
      (send_response conn_c2 (SendResult.sent 1) true).ret = 0
    ∧ (send_response conn_c2 (SendResult.sent 1) true).conn.response = none
    ∧ (send_response conn_c2 (SendResult.sent 1) true).conn.buffer_used = 0
    ∧ (send_response conn_c2 (SendResult.sent 1) true).epoll_in = true)
  ∧ (conn_c2.keep_alive = false →
      (handle_write conn_c2 (SendResult.sent 1) true).removed = true
    ∧ is_free_slot (handle_write conn_c2 (SendResult.sent 1) true).conn) :=
  C2_completion_transition conn_c2 ("OK".toList) 1 rfl (by decide) (by decide)
    (by decide)

/-- C10: releasing always yields the free slot state; releasing an
already-free slot changes nothing and performs no `close`; releasing a NULL
pointer changes no state; and the slot reset is idempotent. -/
theorem C10_release_idempotent (c s : connection_t) (hfree : is_free_slot s) :
    is_free_slot (remove_connection_some c)
  ∧ remove_connection (some s) = (some s, false)
  ∧ remove_connection none = (none, false)
  ∧ remove_connection_some (remove_connection_some c)
      = remove_connection_some c := by
  obtain ⟨h1, h2, h3, h4, h5, h6⟩ := hfree
  refine ⟨?_, ?_, rfl, ?_⟩
  · simp [remove_connection_some, is_free_slot]
  · cases s
    simp only at h1 h2 h3 h4 h5 h6
    subst h1 h2 h3 h4 h5 h6
    simp [remove_connection, remove_connection_some]
  · simp [remove_connection_some]

/-- Concrete occupied connection used to witness C10. -/
def conn_c10 : connection_t :=
  ⟨7, "GET".toList, 3, some ("x".toList), 1, 1, true⟩

/-- Concrete free slot used to witness C10. -/
def free_c10 : connection_t := ⟨-1, "GET".toList, 0, none, 0, 0, false⟩

/-- Witness for C10 at a concrete occupied connection and a concrete free
slot. -/
theorem C10_release_idempotent_witness :
    is_free_slot (remove_connection_some conn_c10)
  ∧ remove_connection (some free_c10) = (some free_c10, false)
  ∧ remove_connection none = (none, false)
  ∧ remove_connection_some (remove_connection_some conn_c10)
      = remove_connection_some conn_c10 :=
  C10_release_idempotent conn_c10 free_c10 (by refine ⟨rfl, rfl, rfl, rfl, rfl, rfl⟩)

/-- The bytes the `send` call hands to the OS in one `send_response` step:
`remaining` bytes starting at offset `response_sent` of the response buffer,
of which the OS accepts the first `k`. -/
def deliver (conn : connection_t) (r : SendResult) : List Char :=
  match r, conn.response with
  | SendResult.sent k, some buf => (buf.drop conn.response_sent).take k
  | _, _ => []

/-- Iterate `send_response` over a sequence of OS outcomes, concatenating the
delivered byte slices in order. -/
def run_sends (epollModOk : Bool) : connection_t → List SendResult → connection_t × List Char
  | conn, [] => (conn, [])
  | conn, r :: rs =>
    let d := deliver conn r
    let o := send_response conn r epollModOk
    let p := run_sends epollModOk o.conn rs
    (p.1, d ++ p.2)

/-- Once the response buffer is gone, further write-readiness events deliver
nothing. -/
lemma run_sends_resp_none (ok : Bool) :
    ∀ (rs : List SendResult) (conn : connection_t),
      conn.response = none → (run_sends ok conn rs).2 = [] := by
  intro rs
  induction rs with
  | nil => intro conn _; rfl
  | cons r rs ih =>
    intro conn h
    simp only [run_sends, deliver, send_response, h]
    cases r <;> simp [ih conn h]

/-- Successive sends starting at cursor `sent` and totalling the remaining
bytes deliver exactly the tail of the buffer from `sent` on. -/
lemma run_sends_drains (ok : Bool) :
    ∀ (ks : List Nat) (conn : connection_t) (buf : List Char),
      conn.response = some buf → conn.response_size = buf.length →
      conn.response_sent + ks.sum = buf.length →
      (run_sends ok conn (ks.map SendResult.sent)).2
        = buf.drop conn.response_sent := by
  intro ks
  induction ks with
  | nil =>
    intro conn buf h1 h2 h3
    simp only [List.sum_nil, Nat.add_zero] at h3
    simp [run_sends, h3.symm ▸ (List.drop_length buf), h3]
  | cons k ks ih =>
    intro conn buf h1 h2 h3
    simp only [List.sum_cons] at h3
    by_cases hc : conn.response_size ≤ conn.response_sent + k
    · -- this send completes the response; the remaining counts sum to zero
      have hkval : conn.response_sent + k = buf.length := by omega
      have hdel : deliver conn (SendResult.sent k) = buf.drop conn.response_sent := by
        simp only [deliver, h1]
        exact List.take_of_length_le (by simp; omega)
      have hnone : (send_response conn (SendResult.sent k) ok).conn.response = none := by
        simp only [send_response, h1, if_pos hc]
        split_ifs <;> rfl
      simp only [List.map_cons, run_sends]
      rw [run_sends_resp_none ok _ _ hnone, hdel, List.append_nil]
    · -- partial send: cursor advances by k and the buffer survives
      have hstep : (send_response conn (SendResult.sent k) ok).conn
          = { conn with response_sent := conn.response_sent + k } := by
        simp [send_response, h1, hc]
      simp only [List.map_cons, run_sends]
      rw [hstep,
        ih { conn with response_sent := conn.response_sent + k } buf
          (by simp [h1]) (by simp [h2]) (by simp only; omega)]
      simp only [deliver, h1]
      rw [show List.drop (conn.response_sent + k) buf
            = (List.drop conn.response_sent buf).drop k from by rw [List.drop_drop],
        List.take_append_drop]

/-- C5: a successful write of `k` bytes advances `output.sent` by exactly
`k`; the response buffer is released exactly when the cursor reaches
`output.total`; and a full sequence of writes whose accepted counts sum to
the buffer length delivers, in concatenation, exactly the original output
buffer. -/
theorem C5_partial_write_drain (conn : connection_t) (buf : List Char)
    (k : Nat) (ok : Bool)
    (hresp : conn.response = some buf)
    (hsz : conn.response_size = buf.length)
    (hsent : conn.response_sent ≤ buf.length)
    (hk : k ≤ buf.length - conn.response_sent) :
    ((send_response conn (SendResult.sent k) ok).conn.response_sent
        = conn.response_sent + k)
  ∧ (((send_response conn (SendResult.sent k) ok).conn.response = none)
        ↔ conn.response_sent + k = conn.response_size)
  ∧ (∀ ks : List Nat, conn.response_sent = 0 → ks.sum = buf.length →
        (run_sends ok conn (ks.map SendResult.sent)).2 = buf) := by
  refine ⟨?_, ?_, ?_⟩
  · by_cases hc : conn.response_size ≤ conn.response_sent + k
    · cases hka : conn.keep_alive <;> cases hok : ok <;>
        simp [send_response, hresp, hc, hka]
    · simp [send_response, hresp, hc]
  · by_cases hc : conn.response_size ≤ conn.response_sent + k
    · have : conn.response_sent + k = conn.response_size := by omega
      cases hka : conn.keep_alive <;> cases hok : ok <;>
        simp [send_response, hresp, hc, hka, this]
    · have : ¬ conn.response_sent + k = conn.response_size := by omega
      simp [send_response, hresp, hc, this]
  · intro ks h0 hsum
    have := run_sends_drains ok ks conn buf hresp hsz (by omega)
    rw [h0] at this
    simpa using this

/-- Concrete half-sent connection used to witness C5. -/
def conn_c5 : connection_t := ⟨6, [], 0, some ("abcd".toList), 4, 0, false⟩

/-- Witness for C5: two writes of two bytes each drain the four-byte
response exactly. -/
theorem C5_partial_write_drain_witness :
    ((send_response conn_c5 (SendResult.sent 2) true).conn.response_sent = 0 + 2)
  ∧ (((send_response conn_c5 (SendResult.sent 2) true).conn.response = none)
        ↔ 0 + 2 = conn_c5.response_size)
  ∧ (run_sends true conn_c5 ([2, 2].map SendResult.sent)).2 = "abcd".toList := by
  have h := C5_partial_write_drain conn_c5 ("abcd".toList) 2 true rfl rfl
    (by decide) (by decide)
  exact ⟨h.1, h.2.1, h.2.2 [2, 2] rfl (by decide)⟩

/-- The slot initialisation performed by `add_connection` when it claims a
free slot: the descriptor is stored and the cursors reset, but the input
buffer's contents are left as the previous occupant wrote them. -/
def init_conn (fd : Int) (c : connection_t) : connection_t :=
  { c with
    fd := fd, buffer_used := 0, response := none,
    response_size := 0, response_sent := 0, keep_alive := false }

/-- Function `add_connection` from the source: linear scan for the first slot with a
negative descriptor; `none` models the NULL return on exhaustion. -/
def add_connection (fd : Int) : List connection_t → Option (connection_t × List connection_t)
  | [] => none
  | c :: rest =>
    if c.fd < 0 then some (init_conn fd c, init_conn fd c :: rest)
    else
      match add_connection fd rest with
      | none => none
      | some (nc, rest') => some (nc, c :: rest')

/-- Number of occupied slots (descriptor `≥ 0`). -/
def occupied_count (pool : List connection_t) : Nat :=
  pool.countP (fun c => decide (0 ≤ c.fd))

/-- Result of the accept path of the main loop for one freshly accepted
descriptor: the pool afterwards, the bytes (if any) sent directly on the raw
socket, whether the socket was closed, and whether a pooled connection
object was created and registered. -/
structure AcceptOutcome where
  pool : List connection_t
  sent_direct : Option (List Char)
  closed : Bool
  conn_created : Bool
deriving DecidableEq

/-- The accept path of the main loop: try to pool the descriptor; on pool
exhaustion send the 503 literal directly on the socket and close it. -/
def handle_accept (pool : List connection_t) (fd : Int) : AcceptOutcome :=
  match add_connection fd pool with
  | none => ⟨pool, some resp_503, true, false⟩
  | some (_, pool') => ⟨pool', none, false, true⟩

/-- A fully occupied pool has no free slot to allocate. -/
lemma add_connection_full (fd : Int) :
    ∀ (pool : List connection_t), (∀ c ∈ pool, 0 ≤ c.fd) →
      add_connection fd pool = none := by
  intro pool
  induction pool with
  | nil => intro _; rfl
  | cons c rest ih =>
    intro hfull
    have hc : ¬ c.fd < 0 := by
      have := hfull c (by simp)
      omega
    simp only [add_connection, if_neg hc, ih (fun x hx => hfull x (by simp [hx]))]

/-- C6: accepting while every pool slot is occupied sends the literal 503
response (status line `503 Service Unavailable`, body
`"Server is overloaded"`) directly on the raw socket, closes it, leaves the
pool and its occupied-slot count unchanged, and creates no connection. -/
theorem C6_pool_exhaustion_503 (pool : List connection_t) (fd : Int)
    (hfull : ∀ c ∈ pool, 0 ≤ c.fd) :
    add_connection fd pool = none
  ∧ handle_accept pool fd = ⟨pool, some resp_503, true, false⟩
  ∧ occupied_count (handle_accept pool fd).pool = occupied_count pool
  ∧ ("HTTP/1.1 503 Service Unavailable".toList) <+: resp_503
  ∧ bodyAfterTerm resp_503 = "Server is overloaded".toList := by
  have hnone := add_connection_full fd pool hfull
  refine ⟨hnone, ?_, ?_, ?_, by decide⟩
  · simp [handle_accept, hnone]
  · simp [handle_accept, hnone]
  · exact (prefixB_correct _ _).mp (by decide)

/-- Concrete one-slot occupied pool used to witness C6. -/
def pool_c6 : List connection_t := [⟨3, [], 0, none, 0, 0, false⟩]

/-- Witness for C6 at a concrete fully occupied pool. -/
theorem C6_pool_exhaustion_503_witness :
    add_connection 9 pool_c6 = none
  ∧ handle_accept pool_c6 9 = ⟨pool_c6, some resp_503, true, false⟩
  ∧ occupied_count (handle_accept pool_c6 9).pool = occupied_count pool_c6
  ∧ ("HTTP/1.1 503 Service Unavailable".toList) <+: resp_503
  ∧ bodyAfterTerm resp_503 = "Server is overloaded".toList :=
  C6_pool_exhaustion_503 pool_c6 9 (by decide)

/-- The `"GET "` literal compared by `strncmp(conn->buffer, "GET ", 4)`. -/
def GET_SP : List Char := "GET ".toList

/-- The keep-alive marker searched for by `strstr`. -/
def KEEP_MARK : List Char := "Connection: keep-alive".toList

/-- Constant `WEB_ROOT` from the source. -/
def WEB_ROOT : List Char := "./www".toList

/-- C whitespace, as recognised by `sscanf`'s `%s` conversion. -/
def is_space_c (c : Char) : Bool :=
  c == ' ' || c == '\t' || c == '\n' || c == '\x0b' || c == '\x0c' || c == '\r'

/-- The first whitespace-delimited token of a string (its method token). -/
def first_token (s : List Char) : List Char :=
  s.takeWhile (fun c => !is_space_c c)

/-- The path extracted by `sscanf(conn->buffer, "GET %s", path)` once the
string is known to start with `"GET "`: skip the three method characters and
any whitespace, then read up to the next whitespace. -/
def scanned_path (s : List Char) : List Char :=
  ((s.drop 3).dropWhile is_space_c).takeWhile (fun c => !is_space_c c)

/-- The requested path after the root rewrite `"/" ↦ "/index.html"`. -/
def resolved_path (s : List Char) : List Char :=
  let p := scanned_path s
  if p = "/".toList then "/index.html".toList else p

/-- The file path built by `snprintf(full_path, sizeof(full_path), "%s%s",
WEB_ROOT, path)`, including its truncation to `BUFFER_SIZE - 1` characters. -/
def full_path (s : List Char) : List Char :=
  (WEB_ROOT ++ resolved_path s).take (BUFFER_SIZE - 1)

/-- The content-type chain from the source: an ordered sequence of `strstr`
tests against the whole path. -/
def content_type (path : List Char) : List Char :=
  if strstrB path (".html".toList) || strstrB path (".htm".toList) then
    "text/html".toList
  else if strstrB path (".css".toList) then "text/css".toList
  else if strstrB path (".js".toList) then "application/javascript".toList
  else if strstrB path (".jpg".toList) || strstrB path (".jpeg".toList) then
    "image/jpeg".toList
  else if strstrB path (".png".toList) then "image/png".toList
  else if strstrB path (".gif".toList) then "image/gif".toList
  else if strstrB path (".txt".toList) then "text/plain".toList
  else "application/octet-stream".toList

/-- The 200 response header built by `snprintf` in the source. -/
def http_200 (ct : List Char) (n : Nat) (ka : Bool) : List Char :=
  ("HTTP/1.1 200 OK\r\nContent-Type: ".toList) ++ ct ++
  ("\r\nContent-Length: ".toList) ++ (Nat.repr n).toList ++
  ("\r\nConnection: ".toList) ++
  (if ka then "keep-alive".toList else "close".toList) ++
  ("\r\n\r\n".toList)

/-- Function `process_http_request` from the source.  `fs` models the file system
(`open`/`fstat`/`read` of the full path, returning the file's bytes), and
`malloc_ok` tells whether the response allocation succeeds.  The function
first writes a NUL at `buffer_used`, so all string operations see the
C-string view of the accumulated bytes. -/
def process_http_request (fs : List Char → Option (List Char))
    (malloc_ok : Bool) (conn : connection_t) : connection_t :=
  let s := cstr (conn.buffer.take conn.buffer_used)
  if prefixB GET_SP s then
    let ka := strstrB s KEEP_MARK
    let path := resolved_path s
    match fs (full_path s) with
    | none =>
      { conn with
        response := some resp_404, response_size := resp_404.length,
        response_sent := 0, keep_alive := false }
    | some content =>
      if malloc_ok then
        let resp := http_200 (content_type path) content.length ka ++ content
        { conn with
          response := some resp, response_size := resp.length,
          response_sent := 0, keep_alive := ka }
      else
        { conn with
          response := some resp_500, response_size := resp_500.length,
          response_sent := 0, keep_alive := false }
  else
    { conn with
      response := some resp_501, response_size := resp_501.length,
      response_sent := 0, keep_alive := false }

/-- The completeness check of the main loop: `strstr(conn->buffer,
"\r\n\r\n")`.  Note it scans the C-string view of the WHOLE buffer (the main
loop does not NUL-terminate at `buffer_used` before this check). -/
def has_complete_request (conn : connection_t) : Bool :=
  strstrB (cstr conn.buffer) crlfcrlf

/-- The 413 state update of the main loop when the buffer fills without a
complete request. -/
def apply_413 (conn : connection_t) : connection_t :=
  { conn with
    response := some resp_413, response_size := resp_413.length,
    response_sent := 0, keep_alive := false }

/-- Result of the read-event data handling: the updated connection and
whether the epoll interest was switched to `EPOLLOUT`. -/
structure ReadOutcome where
  conn : connection_t
  to_write : Bool
deriving DecidableEq

/-- The tail of the main loop's `EPOLLIN` branch, after new bytes have been
appended and `buffer_used` updated: look for a complete request, otherwise
check for overflow. -/
def handle_data (fs : List Char → Option (List Char)) (malloc_ok : Bool)
    (conn : connection_t) : ReadOutcome :=
  if has_complete_request conn then
    ⟨process_http_request fs malloc_ok conn, true⟩
  else if BUFFER_SIZE - 1 ≤ conn.buffer_used then ⟨apply_413 conn, true⟩
  else ⟨conn, false⟩

/-- A string passing the `"GET "` comparison has method token exactly
`GET`. -/
lemma first_token_of_get (s : List Char) (h : prefixB GET_SP s = true) :
    first_token s = "GET".toList := by
  obtain ⟨t, ht⟩ := (prefixB_correct _ _).mp h
  have hG : (!is_space_c 'G') = true := by decide
  have hE : (!is_space_c 'E') = true := by decide
  have hT : (!is_space_c 'T') = true := by decide
  have hsp : (!is_space_c ' ') = false := by decide
  rw [← ht]
  show first_token ('G' :: 'E' :: 'T' :: ' ' :: t) = _
  simp [first_token, List.takeWhile_cons, hG, hE, hT, hsp]

/-- C4: a complete request whose method token is not `GET` yields the 501
literal response (body `"Only GET requests supported"`), forces
`keepAlive = false`, and once the response is fully sent the write handler
releases the connection (it closes even if a keep-alive marker was
present). -/
theorem C4_non_get_rejected (fs : List Char → Option (List Char)) (mok : Bool)
    (conn : connection_t)
    (hm : first_token (cstr (conn.buffer.take conn.buffer_used)) ≠ "GET".toList) :
    ((process_http_request fs mok conn).response = some resp_501)
  ∧ ((process_http_request fs mok conn).keep_alive = false)
  ∧ ((process_http_request fs mok conn).response_size = resp_501.length)
  ∧ ((process_http_request fs mok conn).response_sent = 0)
  ∧ bodyAfterTerm resp_501 = ("Only GET requests supported".toList)
  ∧ (("HTTP/1.1 501 Not Implemented".toList) <+: resp_501)
  ∧ (handle_write (process_http_request fs mok conn)
        (SendResult.sent resp_501.length) true).removed = true := by
  have hp : prefixB GET_SP (cstr (conn.buffer.take conn.buffer_used)) = false := by
    cases h : prefixB GET_SP (cstr (conn.buffer.take conn.buffer_used)) with
    | false => rfl
    | true => exact absurd (first_token_of_get _ h) hm
  refine ⟨?_, ?_, ?_, ?_, by decide, (prefixB_correct _ _).mp (by decide), ?_⟩
  · simp [process_http_request, hp]
  · simp [process_http_request, hp]
  · simp [process_http_request, hp]
  · simp [process_http_request, hp]
  · simp [process_http_request, hp, handle_write, send_response]

/-- Concrete POST request connection used to witness C4. -/
def conn_c4 : connection_t :=
  ⟨8, ("POST / HTTP/1.1\r\nConnection: keep-alive\r\n\r\n".toList) ++ nulChar :: [],
   43, none, 0, 0, false⟩

/-- Witness for C4 at a concrete POST request carrying a keep-alive
marker. -/
theorem C4_non_get_rejected_witness :
    ((process_http_request (fun _ => none) true conn_c4).response = some resp_501)
  ∧ ((process_http_request (fun _ => none) true conn_c4).keep_alive = false)
  ∧ ((process_http_request (fun _ => none) true conn_c4).response_size = resp_501.length)
  ∧ ((process_http_request (fun _ => none) true conn_c4).response_sent = 0)
  ∧ bodyAfterTerm resp_501 = ("Only GET requests supported".toList)
  ∧ (("HTTP/1.1 501 Not Implemented".toList) <+: resp_501)
  ∧ (handle_write (process_http_request (fun _ => none) true conn_c4)
        (SendResult.sent resp_501.length) true).removed = true :=
  C4_non_get_rejected (fun _ => none) true conn_c4 (by decide)

/-- C7: for a parsed GET request that resolves to an existing resource,
`keepAlive` ends up true exactly when the accumulated (NUL-free) request
bytes contain the literal `"Connection: keep-alive"`. -/
theorem C7_keep_alive_marker (fs : List Char → Option (List Char))
    (conn : connection_t) (content : List Char)
    (hnn : nulChar ∉ conn.buffer.take conn.buffer_used)
    (hget : prefixB GET_SP (conn.buffer.take conn.buffer_used) = true)
    (hfs : fs (full_path (conn.buffer.take conn.buffer_used)) = some content) :
    ((process_http_request fs true conn).keep_alive = true)
      ↔ KEEP_MARK <:+: (conn.buffer.take conn.buffer_used) := by
  have hs : cstr (conn.buffer.take conn.buffer_used)
      = conn.buffer.take conn.buffer_used := by
    refine takeWhile_all _ _ (fun x hx => ?_)
    simp only [bne_iff_ne, ne_eq, decide_eq_true_eq]
    intro h
    exact hnn (h ▸ hx)
  rw [← strstrB_correct]
  simp [process_http_request, hs, hget, hfs]

/-- Concrete keep-alive GET request connection used to witness C7. -/
def conn_c7 : connection_t :=
  ⟨2, ("GET /x HTTP/1.1\r\nConnection: keep-alive\r\n\r\n".toList) ++ nulChar :: [],
   43, none, 0, 0, false⟩

/-- Concrete file system used to witness C7: only `./www/x` exists. -/
def fs_c7 : List Char → Option (List Char) :=
  fun p => if p = "./www/x".toList then some ("hi".toList) else none

/-- Witness for C7 at a concrete GET request with a keep-alive marker. -/
theorem C7_keep_alive_marker_witness :
    ((process_http_request fs_c7 true conn_c7).keep_alive = true)
      ↔ KEEP_MARK <:+: (conn_c7.buffer.take conn_c7.buffer_used) :=
  C7_keep_alive_marker fs_c7 conn_c7 ("hi".toList) (by decide) (by decide)
    (by decide)

/-- C3: when the accumulated bytes (NUL-terminated at the cursor) contain no
`CRLFCRLF` and `buffer_used` has reached `BUFFER_SIZE - 1`, the read handler
installs exactly the 413 literal response with `keepAlive` forced false and
switches the socket to write interest; completing that send makes the write
handler release the connection. -/
theorem C3_overflow_rejected (fs : List Char → Option (List Char)) (mok : Bool)
    (conn : connection_t) (acc rest : List Char)
    (hb : conn.buffer = acc ++ nulChar :: rest)
    (hnn : nulChar ∉ acc)
    (hterm : ¬ crlfcrlf <:+: acc)
    (hu : BUFFER_SIZE - 1 ≤ conn.buffer_used) :
    ((handle_data fs mok conn).conn.response = some resp_413)
  ∧ ((handle_data fs mok conn).conn.keep_alive = false)
  ∧ ((handle_data fs mok conn).conn.response_size = resp_413.length)
  ∧ ((handle_data fs mok conn).conn.response_sent = 0)
  ∧ ((handle_data fs mok conn).to_write = true)
  ∧ (("HTTP/1.1 413 Request Entity Too Large".toList) <+: resp_413)
  ∧ (handle_write (handle_data fs mok conn).conn
        (SendResult.sent resp_413.length) true).removed = true := by
  have hcs : cstr conn.buffer = acc := by
    rw [hb]
    exact cstr_append_nul acc rest hnn
  have h1 : has_complete_request conn = false := by
    unfold has_complete_request
    rw [hcs]
    cases h : strstrB acc crlfcrlf with
    | false => rfl
    | true => exact absurd ((strstrB_correct _ _).mp h) hterm
  refine ⟨?_, ?_, ?_, ?_, ?_, (prefixB_correct _ _).mp (by decide), ?_⟩
  · simp [handle_data, h1, hu, apply_413]
  · simp [handle_data, h1, hu, apply_413]
  · simp [handle_data, h1, hu, apply_413]
  · simp [handle_data, h1, hu, apply_413]
  · simp [handle_data, h1, hu]
  · simp [handle_data, h1, hu, apply_413, handle_write, send_response]

/-- Concrete connection whose buffer holds `BUFFER_SIZE - 1` terminator-free
bytes, used to witness C3. -/
def conn_c3 : connection_t :=
  ⟨9, List.replicate 8191 'A' ++ nulChar :: [], 8191, none, 0, 0, false⟩

/-- Witness for C3 at a concrete full, terminator-free buffer. -/
theorem C3_overflow_rejected_witness :
    ((handle_data (fun _ => none) true conn_c3).conn.response = some resp_413)
  ∧ ((handle_data (fun _ => none) true conn_c3).conn.keep_alive = false)
  ∧ ((handle_data (fun _ => none) true conn_c3).conn.response_size = resp_413.length)
  ∧ ((handle_data (fun _ => none) true conn_c3).conn.response_sent = 0)
  ∧ ((handle_data (fun _ => none) true conn_c3).to_write = true)
  ∧ (("HTTP/1.1 413 Request Entity Too Large".toList) <+: resp_413)
  ∧ (handle_write (handle_data (fun _ => none) true conn_c3).conn
        (SendResult.sent resp_413.length) true).removed = true :=
  C3_overflow_rejected (fun _ => none) true conn_c3 (List.replicate 8191 'A') []
    rfl
    (fun h => absurd (List.mem_replicate.mp h).2 (by decide))
    (not_occurs_of_mem_not_mem (c := '\r') (by decide)
      (fun h => absurd (List.mem_replicate.mp h).2 (by decide)))
    (by decide)

/-- C8 (amended): the main loop declares a request complete exactly when
`CRLFCRLF` occurs in the C-string view of the buffer; when a NUL immediately
follows the accumulated bytes this coincides with the accumulated region
`buffer.take buffer_used`. -/
theorem C8_terminator_stale_bytes (conn : connection_t) (acc rest : List Char)
    (hb : conn.buffer = acc ++ nulChar :: rest)
    (hnn : nulChar ∉ acc)
    (hu : conn.buffer_used = acc.length) :
    (has_complete_request conn = true)
      ↔ crlfcrlf <:+: (conn.buffer.take conn.buffer_used) := by
  have htake : conn.buffer.take conn.buffer_used = acc := by
    rw [hb, hu]
    exact List.take_left' rfl
  have hcs : cstr conn.buffer = acc := by
    rw [hb]
    exact cstr_append_nul acc rest hnn
  rw [htake, ← strstrB_correct]
  unfold has_complete_request
  rw [hcs]

/-- Concrete short accumulated request with a NUL right after it, used to
witness the amended C8. -/
def conn_c8 : connection_t :=
  ⟨3, ("GE".toList) ++ nulChar :: [], 2, none, 0, 0, false⟩

/-- Witness for the amended C8 at a concrete two-byte accumulation. -/
theorem C8_terminator_stale_bytes_witness :
    (has_complete_request conn_c8 = true)
      ↔ crlfcrlf <:+: (conn_c8.buffer.take conn_c8.buffer_used) :=
  C8_terminator_stale_bytes conn_c8 ("GE".toList) [] rfl (by decide) rfl

/-- Connection state after a keep-alive reset: two new bytes accumulated,
while the previous request's bytes (and its NUL terminator) are still in the
buffer beyond `buffer_used`. -/
def conn_stale : connection_t :=
  ⟨5, ("GET / HTTP/1.1\r\nConnection: keep-alive\r\n\r\n".toList) ++ nulChar :: [],
   2, none, 0, 0, false⟩

/-- C8 counterexample: the completeness check fires although the accumulated
region (the first `buffer_used` bytes) contains no `CRLFCRLF` — the
terminator it finds lies entirely in stale bytes. -/
theorem C8_counterexample_stale :
    has_complete_request conn_stale = true
  ∧ ¬ crlfcrlf <:+: (conn_stale.buffer.take conn_stale.buffer_used) := by
  constructor
  · decide
  · intro h
    have hh := (strstrB_correct _ _).mpr h
    revert hh
    decide

/-- The extensions named by the suffix table of the specification. -/
def ext_keys : List (List Char) :=
  ["html".toList, "htm".toList, "css".toList, "js".toList,
   "jpg".toList, "jpeg".toList, "png".toList, "gif".toList, "txt".toList]

/-- The content-type chain rephrased on the extension alone: each source
test `strstr(path, ".X")` becomes `X` being a prefix of the extension. -/
def ext_lookup (ext : List Char) : List Char :=
  if prefixB ("html".toList) ext || prefixB ("htm".toList) ext then
    "text/html".toList
  else if prefixB ("css".toList) ext then "text/css".toList
  else if prefixB ("js".toList) ext then "application/javascript".toList
  else if prefixB ("jpg".toList) ext || prefixB ("jpeg".toList) ext then
    "image/jpeg".toList
  else if prefixB ("png".toList) ext then "image/png".toList
  else if prefixB ("gif".toList) ext then "image/gif".toList
  else if prefixB ("txt".toList) ext then "text/plain".toList
  else "application/octet-stream".toList

/-- Modelled from the spec: the path's suffix, the characters after its last
dot. -/
def spec_suffix (path : List Char) : List Char :=
  (path.reverse.takeWhile (fun c => c != '.')).reverse

/-- Modelled from the spec: the closed suffix table applied to the path's
suffix. -/
def spec_suffix_content_type (path : List Char) : List Char :=
  let ext := spec_suffix path
  if ext = "html".toList ∨ ext = "htm".toList then "text/html".toList
  else if ext = "css".toList then "text/css".toList
  else if ext = "js".toList then "application/javascript".toList
  else if ext = "jpg".toList ∨ ext = "jpeg".toList then "image/jpeg".toList
  else if ext = "png".toList then "image/png".toList
  else if ext = "gif".toList then "image/gif".toList
  else if ext = "txt".toList then "text/plain".toList
  else "application/octet-stream".toList

/-- A pattern starting with a dot never occurs in a dot-free string. -/
lemma strstrB_no_dot (l q : List Char) (h : '.' ∉ l) :
    strstrB l ('.' :: q) = false := by
  induction l with
  | nil => rfl
  | cons a t ih =>
    have ha : ('.' == a) = false := by
      simp only [beq_eq_false_iff_ne, ne_eq]
      intro hh
      exact h (by simp [hh.symm])
    simp [strstrB, prefixB, ha, ih (fun hx => h (by simp [hx]))]

/-- In a path of shape `stem.ext` with dot-free stem and extension, a search
for `".X"` succeeds exactly when `X` is a prefix of the extension. -/
lemma strstrB_dot (q ext : List Char) (he : '.' ∉ ext) (_hq : '.' ∉ q) :
    ∀ stem : List Char, '.' ∉ stem →
      strstrB (stem ++ '.' :: ext) ('.' :: q) = prefixB q ext := by
  intro stem
  induction stem with
  | nil =>
    intro _
    rw [List.nil_append]
    simp [strstrB, prefixB, strstrB_no_dot ext q he]
  | cons a as ih =>
    intro hs
    have ha : ('.' == a) = false := by
      simp only [beq_eq_false_iff_ne, ne_eq]
      intro hh
      exact hs (by simp [hh.symm])
    rw [List.cons_append]
    simp only [strstrB, prefixB, ha, Bool.false_and, Bool.false_or]
    exact ih (fun hx => hs (by simp [hx]))

/-- On a single-dot path the source's substring chain reduces to the
extension-only chain. -/
lemma content_type_dot (stem ext : List Char) (hs : '.' ∉ stem)
    (he : '.' ∉ ext) :
    content_type (stem ++ '.' :: ext) = ext_lookup ext := by
  have h1 : strstrB (stem ++ '.' :: ext) (".html".toList)
      = prefixB ("html".toList) ext := strstrB_dot _ ext he (by decide) stem hs
  have h2 : strstrB (stem ++ '.' :: ext) (".htm".toList)
      = prefixB ("htm".toList) ext := strstrB_dot _ ext he (by decide) stem hs
  have h3 : strstrB (stem ++ '.' :: ext) (".css".toList)
      = prefixB ("css".toList) ext := strstrB_dot _ ext he (by decide) stem hs
  have h4 : strstrB (stem ++ '.' :: ext) (".js".toList)
      = prefixB ("js".toList) ext := strstrB_dot _ ext he (by decide) stem hs
  have h5 : strstrB (stem ++ '.' :: ext) (".jpg".toList)
      = prefixB ("jpg".toList) ext := strstrB_dot _ ext he (by decide) stem hs
  have h6 : strstrB (stem ++ '.' :: ext) (".jpeg".toList)
      = prefixB ("jpeg".toList) ext := strstrB_dot _ ext he (by decide) stem hs
  have h7 : strstrB (stem ++ '.' :: ext) (".png".toList)
      = prefixB ("png".toList) ext := strstrB_dot _ ext he (by decide) stem hs
  have h8 : strstrB (stem ++ '.' :: ext) (".gif".toList)
      = prefixB ("gif".toList) ext := strstrB_dot _ ext he (by decide) stem hs
  have h9 : strstrB (stem ++ '.' :: ext) (".txt".toList)
      = prefixB ("txt".toList) ext := strstrB_dot _ ext he (by decide) stem hs
  unfold content_type ext_lookup
  rw [h1, h2, h3, h4, h5, h6, h7, h8, h9]

/-- The suffix of a single-dot path is the extension after the dot. -/
lemma spec_suffix_dot (stem ext : List Char) (he : '.' ∉ ext) :
    spec_suffix (stem ++ '.' :: ext) = ext := by
  unfold spec_suffix
  rw [List.reverse_append, List.reverse_cons, List.append_assoc,
    List.singleton_append]
  rw [takeWhile_append_cons _ ext.reverse '.' stem.reverse
    (fun x hx => ?_) (by simp)]
  · exact List.reverse_reverse ext
  · simp only [bne_iff_ne, ne_eq, decide_eq_true_eq]
    intro h
    exact he (h ▸ (List.mem_reverse.mp hx))

/-- A non-prefix yields a false `prefixB` test. -/
lemma prefixB_false_of_not_prefix {q ext : List Char} (h : ¬ q <+: ext) :
    prefixB q ext = false := by
  cases hh : prefixB q ext with
  | false => rfl
  | true => exact absurd ((prefixB_correct _ _).mp hh) h

/-- C9 (amended): the source picks the content type by an ordered substring
search over the whole path; on a single-dot path whose extension either is a
table key or has no table key as a prefix, this agrees with the
specification's suffix table. -/
theorem C9_suffix_table (stem ext : List Char) (hs : '.' ∉ stem)
    (he : '.' ∉ ext)
    (hk : ext ∈ ext_keys ∨ ∀ q ∈ ext_keys, ¬ q <+: ext) :
    content_type (stem ++ '.' :: ext)
      = spec_suffix_content_type (stem ++ '.' :: ext) := by
  rw [content_type_dot stem ext hs he]
  unfold spec_suffix_content_type
  rw [spec_suffix_dot stem ext he]
  rcases hk with hk | hk
  · fin_cases hk <;> decide
  · have n1 : prefixB ['h', 't', 'm', 'l'] ext = false :=
      prefixB_false_of_not_prefix (hk _ (by decide : "html".toList ∈ ext_keys))
    have n2 : prefixB ['h', 't', 'm'] ext = false :=
      prefixB_false_of_not_prefix (hk _ (by decide : "htm".toList ∈ ext_keys))
    have n3 : prefixB ['c', 's', 's'] ext = false :=
      prefixB_false_of_not_prefix (hk _ (by decide : "css".toList ∈ ext_keys))
    have n4 : prefixB ['j', 's'] ext = false :=
      prefixB_false_of_not_prefix (hk _ (by decide : "js".toList ∈ ext_keys))
    have n5 : prefixB ['j', 'p', 'g'] ext = false :=
      prefixB_false_of_not_prefix (hk _ (by decide : "jpg".toList ∈ ext_keys))
    have n6 : prefixB ['j', 'p', 'e', 'g'] ext = false :=
      prefixB_false_of_not_prefix (hk _ (by decide : "jpeg".toList ∈ ext_keys))
    have n7 : prefixB ['p', 'n', 'g'] ext = false :=
      prefixB_false_of_not_prefix (hk _ (by decide : "png".toList ∈ ext_keys))
    have n8 : prefixB ['g', 'i', 'f'] ext = false :=
      prefixB_false_of_not_prefix (hk _ (by decide : "gif".toList ∈ ext_keys))
    have n9 : prefixB ['t', 'x', 't'] ext = false :=
      prefixB_false_of_not_prefix (hk _ (by decide : "txt".toList ∈ ext_keys))
    have e1 : ext ≠ ['h', 't', 'm', 'l'] :=
      fun h => (hk _ (by decide : "html".toList ∈ ext_keys)) (h ▸ List.prefix_refl _)
    have e2 : ext ≠ ['h', 't', 'm'] :=
      fun h => (hk _ (by decide : "htm".toList ∈ ext_keys)) (h ▸ List.prefix_refl _)
    have e3 : ext ≠ ['c', 's', 's'] :=
      fun h => (hk _ (by decide : "css".toList ∈ ext_keys)) (h ▸ List.prefix_refl _)
    have e4 : ext ≠ ['j', 's'] :=
      fun h => (hk _ (by decide : "js".toList ∈ ext_keys)) (h ▸ List.prefix_refl _)
    have e5 : ext ≠ ['j', 'p', 'g'] :=
      fun h => (hk _ (by decide : "jpg".toList ∈ ext_keys)) (h ▸ List.prefix_refl _)
    have e6 : ext ≠ ['j', 'p', 'e', 'g'] :=
      fun h => (hk _ (by decide : "jpeg".toList ∈ ext_keys)) (h ▸ List.prefix_refl _)
    have e7 : ext ≠ ['p', 'n', 'g'] :=
      fun h => (hk _ (by decide : "png".toList ∈ ext_keys)) (h ▸ List.prefix_refl _)
    have e8 : ext ≠ ['g', 'i', 'f'] :=
      fun h => (hk _ (by decide : "gif".toList ∈ ext_keys)) (h ▸ List.prefix_refl _)
    have e9 : ext ≠ ['t', 'x', 't'] :=
      fun h => (hk _ (by decide : "txt".toList ∈ ext_keys)) (h ▸ List.prefix_refl _)
    simp [ext_lookup, n1, n2, n3, n4, n5, n6, n7, n8, n9,
      e1, e2, e3, e4, e5, e6, e7, e8, e9]

/-- Witness for the amended C9: `/a.png` maps to `image/png` under both the
source chain and the suffix table. -/
theorem C9_suffix_table_witness :
    content_type (("/a".toList) ++ '.' :: ("png".toList))
      = spec_suffix_content_type (("/a".toList) ++ '.' :: ("png".toList)) :=
  C9_suffix_table ("/a".toList) ("png".toList) (by decide) (by decide)
    (Or.inl (by decide))

/-- C9 counterexample: for the path `/a.png.txt` the suffix table demands
`text/plain`, but the source's substring chain answers `image/png`. -/
theorem C9_counterexample_substring :
    content_type ("/a.png.txt".toList) = "image/png".toList
  ∧ spec_suffix_content_type ("/a.png.txt".toList) = "text/plain".toList := by
  constructor
  · decide
  · decide
